import Mathlib

/-!
Verification development for the replication pipeline engine of
databases-snowflake-replication.

The development shallowly embeds the code of
src/models/snowflake_client.py, src/models/task_manager_client.py,
src/models/database_client.py and src/main.py. Rows and staged-file
identifiers are abstracted to natural numbers; warehouse command
semantics (DELETE, COPY, load history) are modelled from the comments
in execute_copy_command and from spec section 4.2; everything else is
translated directly from the Python source.
-/

namespace SnowflakeRepl

/-- A row of the source result set, abstracted to an identifier. -/
abbrev Row := Nat

/-- Identifier of a file sitting in a warehouse stage. -/
abbrev FileId := Nat

/-! ## Warehouse client (src/models/snowflake_client.py) -/

/-- Outcome of one underlying warehouse query execution
(cursor.execute + fetchall inside SnowflakeClient.execute_query):
either the command succeeds and yields rows, or it raises a
ProgrammingError (the error class of failed warehouse commands, caught
inside execute_query), or it raises some other exception that
execute_query does not catch. -/
inductive QueryOutcome where
  | rows (rs : List Row)
  | programmingError
  | otherError
deriving DecidableEq

/-- Embeds SnowflakeClient.execute_query (lines 97-117): a
ProgrammingError is caught, logged and turned into the empty row list;
any other exception propagates to the caller. -/
def execute_query : QueryOutcome → Except Unit (List Row)
  | QueryOutcome.rows rs => Except.ok rs
  | QueryOutcome.programmingError => Except.ok []
  | QueryOutcome.otherError => Except.error ()

/-- Embeds SnowflakeClient.execute_put (lines 119-145): it runs
execute_query on the PUT command inside a bare try/except and returns
true unless execute_query itself raised. -/
def execute_put (o : QueryOutcome) : Bool :=
  match execute_query o with
  | Except.ok _ => true
  | Except.error _ => false

/-- State of one warehouse target table: its rows together with the
load-history bookmark of its stage (the set of staged files already
marked as loaded). -/
structure WarehouseTable where
  rows : List Row
  loaded_files : List FileId
deriving DecidableEq

/-- A warehouse stage: the staged files, each with an identifier and
its data rows. -/
structure Stage where
  files : List (FileId × List Row)
deriving DecidableEq

/-- DELETE FROM table. Modelled from the comment in
execute_copy_command (lines 155-157): a plain row-delete empties the
table but preserves the load-history bookmark (a native TRUNCATE would
reset it). -/
def delete_from (t : WarehouseTable) : WarehouseTable :=
  WarehouseTable.mk [] t.loaded_files

/-- COPY INTO table FROM stage. Modelled from the spec section 4.2 and
the comments of execute_copy_command / create_snowflake_table: the
copy loads exactly the staged files that are absent from the load
history, appends their rows to the table, and records those files in
the history. -/
def copy_into (s : Stage) (t : WarehouseTable) : WarehouseTable :=
  s.files.foldl
    (fun acc f =>
      if f.1 ∈ acc.loaded_files then acc
      else WarehouseTable.mk (acc.rows ++ f.2) (acc.loaded_files ++ [f.1]))
    t

/-- Embeds SnowflakeClient.execute_copy_command (lines 147-170): one
load invocation issues the full row-delete first and then the copy
command referencing the stage. -/
def execute_copy_command (s : Stage) (t : WarehouseTable) : WarehouseTable :=
  copy_into s (delete_from t)

/-- The staged files whose identifiers are not yet in the given load
history, in stage order (specification helper for copy_into). -/
def unloaded_files (loaded : List FileId) : List (FileId × List Row) → List (FileId × List Row)
  | [] => []
  | f :: fs => if f.1 ∈ loaded then unloaded_files loaded fs else f :: unloaded_files loaded fs

/-! ## Per-file transfer and deletion (TaskManagerClient.__upload_put_then_delete_file) -/

/-- The per-invocation configuration visible to
__upload_put_then_delete_file (lines 168-200): which clients exist,
whether the stages are internal, and the file-service setting
exclude_file_after_uploading consulted before deleting a local file. -/
structure SweepContext where
  has_snowflake : Bool
  stages_internal : Bool
  has_cloud : Bool
  exclude_file_after_uploading : Bool
deriving DecidableEq

/-- status_put of __upload_put_then_delete_file (lines 187-191):
false unless a Snowflake client with internal stages is present, in
which case it is the value returned by execute_put. -/
def status_put (c : SweepContext) (put_res : Bool) : Bool :=
  if c.has_snowflake && c.stages_internal then put_res else false

/-- status_cloud of __upload_put_then_delete_file (lines 193-197):
false unless a cloud client is present, in which case it is the value
returned by upload_file. -/
def status_cloud (c : SweepContext) (cloud_res : Bool) : Bool :=
  if c.has_cloud then cloud_res else false

/-- Whether at least one transfer of the file reported success
(status_cloud or status_put). -/
def transfer_reported_success (c : SweepContext) (put_res cloud_res : Bool) : Bool :=
  status_cloud c cloud_res || status_put c put_res

/-- Embeds the deletion decision of __upload_put_then_delete_file
(line 199): the local file is deleted exactly when
(status_cloud or status_put) and exclude_file_after_uploading. -/
def upload_deletes_file (c : SweepContext) (put_res cloud_res : Bool) : Bool :=
  transfer_reported_success c put_res cloud_res && c.exclude_file_after_uploading

/-- Embeds TaskManagerClient.__upload_files (lines 202-219) restricted
to its effect on local storage: each file of the directory listing is
processed by __upload_put_then_delete_file with its own transfer
results; the value is the list of files still present afterwards. -/
def upload_files_remaining (c : SweepContext) (put_res cloud_res : String → Bool)
    (remaining_files : List String) : List String :=
  remaining_files.filter (fun f => !(upload_deletes_file c (put_res f) (cloud_res f)))

/-! ## Date partitioning (TaskManagerClient.__upload_put_then_delete_file, lines 177-185) -/

/-- A calendar date as read from datetime.datetime.now(). -/
structure CalDate where
  year : Nat
  month : Nat
  day : Nat
deriving DecidableEq

/-- The date-partition path segment appended to the cloud storage
path: /year=YYYY/month=M/day=D. -/
def partition_segment (d : CalDate) : String :=
  "/year=" ++ toString d.year ++ "/month=" ++ toString d.month ++ "/day=" ++ toString d.day

/-- Remote directory used for one file upload: inside
__upload_put_then_delete_file, when a cloud storage path exists and
partitioning is on, datetime.datetime.now() is read and the partition
segment is appended to the (call-local) cloud storage path. -/
def upload_remote_dir (cloud_storage_path : Option String) (partitionate : Bool)
    (d : CalDate) : Option String :=
  match cloud_storage_path with
  | none => none
  | some p => if partitionate then some (p ++ partition_segment d) else some p

/-- Embeds the loop of __upload_files as far as remote paths are
concerned: each file triggers one call of
__upload_put_then_delete_file, and that call performs its own
datetime.datetime.now() read, here the i-th reading of the clock. -/
def upload_files_remote_dirs (cloud_storage_path : Option String) (partitionate : Bool)
    (clock : Nat → CalDate) : Nat → List String → List (String × Option String)
  | _, [] => []
  | i, f :: fs =>
      (f, upload_remote_dir cloud_storage_path partitionate (clock i)) ::
        upload_files_remote_dirs cloud_storage_path partitionate clock (i + 1) fs

/-! ## Orchestrator (TaskManagerClient.start_replication, lines 221-253) -/

/-- Folds the final loop of start_replication: task.result() is called
on every future in submission order and the first stored exception is
re-raised. -/
def collect_results {ε : Type} : List (Except ε Unit) → Except ε Unit
  | [] => Except.ok ()
  | Except.ok _ :: rest => collect_results rest
  | Except.error e :: _ => Except.error e

/-- Embeds TaskManagerClient.start_replication: every table
configuration is submitted exactly once to the worker pool; the
ThreadPoolExecutor context manager waits for all futures, so every
task reaches a terminal state recorded in the first component; the
second component is what the trailing task.result() loop produces. -/
def start_replication {σ ε : Type} (run_task : σ → Except ε Unit) (specs : List σ) :
    List (σ × Except ε Unit) × Except ε Unit :=
  let tasks := specs.map (fun s => (s, run_task s))
  (tasks, collect_results (tasks.map Prod.snd))

/-! ## Table-config validation (src/main.py) -/

/-- The fields of one entry of the tables configuration that
Main.__validate_if_table_config_is_invalid consults. Optional fields
keep their Python defaults: replicate defaults to true and file_format
to csv via dict.get. -/
structure TableConfig where
  replicate : Bool
  table_name : Option String
  file_format : Option String
deriving DecidableEq

/-- Embeds Main.__validate_if_table_config_is_invalid (lines 262-289):
returns true (config skipped) when replicate is false, the table name
is missing or empty, the lower-cased file format is not a valid one,
or the table does not exist in the source database. -/
def validate_if_table_config_is_invalid (valid_file_formats source_db_tables : List String)
    (t : TableConfig) : Bool :=
  if t.replicate = false then true
  else if t.table_name.getD "" = "" then true
  else if ((t.file_format.getD "csv").toLower ∈ valid_file_formats) = false then true
  else if (t.table_name.getD "" ∈ source_db_tables) = false then true
  else false

/-- Embeds the filtering loop of Main.__init__ (lines 84-93): a table
configuration is appended to filtered_tables_configs exactly when the
validation does not reject it; the filtered list is what is later
handed to start_replication. -/
def filtered_tables_configs (valid_file_formats source_db_tables : List String)
    (tables_config : List TableConfig) : List TableConfig :=
  tables_config.filter
    (fun t => !(validate_if_table_config_is_invalid valid_file_formats source_db_tables t))

/-! ## Batched extraction (DatabaseClient.execute_query, lines 76-114) -/

/-- Outcome of one cursor.fetchone() attempt inside batch_extraction:
the next cursor row is either fetched successfully or its fetch raises
(the row is consumed, logged, counted as failed and skipped). -/
inductive FetchOutcome where
  | ok (r : Row)
  | fail
deriving DecidableEq

/-- The successfully fetched rows of a sequence of fetch attempts. -/
def ok_rows : List FetchOutcome → List Row
  | [] => []
  | FetchOutcome.ok r :: rest => r :: ok_rows rest
  | FetchOutcome.fail :: rest => ok_rows rest

/-- Embeds the inner for-loop of batch_extraction
(for _ in range(size)): the first argument is the remaining loop
budget, then the remaining cursor attempts and the running count of
successfully extracted rows. Each iteration first compares count with
total_records, then performs one fetch: a None fetch (exhausted
cursor) breaks out, a successful fetch appends the row and increments
count, a failed fetch is skipped. Returns the collected batch, the
remaining cursor attempts and the new count. -/
def inner_fetch (total : Nat) : Nat → List FetchOutcome → Nat → List Row × List FetchOutcome × Nat
  | 0, outs, count => ([], outs, count)
  | n + 1, outs, count =>
    if count = total then ([], outs, count)
    else
      match outs with
      | [] => ([], [], count)
      | FetchOutcome.ok r :: rest =>
          let p := inner_fetch total n rest (count + 1)
          (r :: p.1, p.2.1, p.2.2)
      | FetchOutcome.fail :: rest => inner_fetch total n rest count

/-- Embeds the outer while-True loop of batch_extraction: run one
inner loop; if the collected batch is empty, terminate, otherwise
yield the batch and continue. The first argument is termination fuel;
batch_extraction supplies enough for the loop to run to completion. -/
def outer_fetch (size total : Nat) : Nat → List FetchOutcome → Nat → List (List Row)
  | 0, _, _ => []
  | fuel + 1, outs, count =>
    let p := inner_fetch total size outs count
    if p.1 = [] then []
    else p.1 :: outer_fetch size total fuel p.2.1 p.2.2

/-- Embeds DatabaseClient.execute_query in batched mode: the generator
batch_extraction started on a cursor whose successive fetchone
attempts are outs, with batch size size and total_records total. The
value is the list of yielded batches. -/
def batch_extraction (size total : Nat) (outs : List FetchOutcome) : List (List Row) :=
  outer_fetch size total (outs.length + 1) outs 0

/-- Simplified inner loop used to reason about inner_fetch: take up to
n attempts, collect the successes, stop on an exhausted cursor. -/
def inner_simple : Nat → List FetchOutcome → List Row × List FetchOutcome
  | 0, outs => ([], outs)
  | _ + 1, [] => ([], [])
  | n + 1, FetchOutcome.ok r :: rest =>
      let p := inner_simple n rest
      (r :: p.1, p.2)
  | n + 1, FetchOutcome.fail :: rest => inner_simple n rest

/-- Simplified outer loop used to reason about outer_fetch: repeatedly
take a window of size attempts and yield its successes, stopping at
the first window without any success. -/
def outer_simple : Nat → Nat → List FetchOutcome → List (List Row)
  | 0, _, _ => []
  | fuel + 1, size, outs =>
    if ok_rows (outs.take size) = [] then []
    else ok_rows (outs.take size) :: outer_simple fuel size (outs.drop size)

/-- Worker for chunks_of: the first argument after the chunk size is
recursion fuel, at least the length of the list. -/
def chunks_go (b : Nat) : Nat → List FetchOutcome → List (List FetchOutcome)
  | _, [] => []
  | 0, x :: xs => [x :: xs]
  | fuel + 1, x :: xs => ((x :: xs).take b) :: chunks_go b fuel ((x :: xs).drop b)

/-- The fetch attempts split into consecutive windows of the batch
size. -/
def chunks_of (b : Nat) (l : List FetchOutcome) : List (List FetchOutcome) :=
  chunks_go b l.length l

/-- Ceiling division: the number of batches the spec predicts for
total row count n and batch size b. -/
def ceil_div (n b : Nat) : Nat := (n + b - 1) / b

/-! ## The per-table pipeline (TaskManagerClient.__task_definition, lines 47-166) -/

/-- Observable side effects of one pipeline invocation, in program
order. -/
inductive PipelineEvent where
  | write_file (dir file_name : String) (row_count : Nat)
  | create_stage (stage : String)
  | upload_file (file_name : String)
  | create_table (table : String)
  | copy_command (table : String)
  | create_view (view : String)
deriving DecidableEq

/-- The per-invocation inputs of __task_definition that determine its
event trace. Field order: local_storage_directory, database, schema,
table_renamed, timestamp, file_format, has_snowflake, has_cloud,
batch_size. -/
structure TaskConfig where
  local_storage_directory : String
  database : String
  schema : String
  table_renamed : String
  timestamp : String
  file_format : String
  has_snowflake : Bool
  has_cloud : Bool
  batch_size : Option Nat
deriving DecidableEq

/-- Embeds the local_storage_path expression of __task_definition
(lines 81-90): the schema path segment is present exactly when the
schema name differs from the database name. -/
def local_storage_path (c : TaskConfig) : String :=
  if c.schema ≠ c.database then
    c.local_storage_directory ++ c.database ++ "/" ++ c.schema ++ "/" ++ c.table_renamed
  else
    c.local_storage_directory ++ c.database ++ "/" ++ c.table_renamed

/-- Embeds the file_name expression of __task_definition (line 108):
timestamp dot format. -/
def task_file_name (c : TaskConfig) : String :=
  c.timestamp ++ "." ++ c.file_format

/-- Embeds the batched file name of __task_definition (line 126): the
batch counter is prepended, separated by an underscore. -/
def batch_file_name (c : TaskConfig) (batch_count : Nat) : String :=
  toString batch_count ++ "_" ++ task_file_name c

/-- Written from the words of the spec (section 4.1 step 4 and claim
C8), for comparison with batch_file_name: the batch index is appended
to the timestamp as an underscore suffix before the extension. -/
def spec_batch_file_name (c : TaskConfig) (batch_index : Nat) : String :=
  c.timestamp ++ "_" ++ toString batch_index ++ "." ++ c.file_format

/-- Embeds the batched write loop of __task_definition (lines
124-129): one write_file per yielded batch, with the running batch
counter in the file name. -/
def batch_write_events (c : TaskConfig) : Nat → List (List Row) → List PipelineEvent
  | _, [] => []
  | i, b :: bs =>
      PipelineEvent.write_file (local_storage_path c) (batch_file_name c i) b.length ::
        batch_write_events c (i + 1) bs

/-- The extraction-and-write phase of __task_definition (lines
117-137): in batched mode one file per batch of batch_extraction, in
bulk mode a single file holding the whole fetched result set (written
unconditionally, also when data is empty). -/
def write_events (c : TaskConfig) (data : List Row) (outs : List FetchOutcome)
    (total : Nat) : List PipelineEvent :=
  match c.batch_size with
  | some size => batch_write_events c 0 (batch_extraction size total outs)
  | none => [PipelineEvent.write_file (local_storage_path c) (task_file_name c) data.length]

/-- Embeds TaskManagerClient.__task_definition (lines 47-166) as its
event trace: extraction writes, then stage creation when a Snowflake
client exists, then the upload sweep over every file currently in the
local directory when a Snowflake or cloud client exists, then table
creation, the copy command and view creation when a Snowflake client
exists. -/
def task_definition (c : TaskConfig) (data : List Row) (outs : List FetchOutcome)
    (total : Nat) (remaining_files : List String) : List PipelineEvent :=
  write_events c data outs total ++
    (if c.has_snowflake then [PipelineEvent.create_stage c.table_renamed] else []) ++
    (if c.has_snowflake || c.has_cloud then remaining_files.map PipelineEvent.upload_file
     else []) ++
    (if c.has_snowflake then
      [PipelineEvent.create_table c.table_renamed,
       PipelineEvent.copy_command c.table_renamed,
       PipelineEvent.create_view c.table_renamed]
     else [])

/-- Event classifier: local file writes. -/
def is_write_event : PipelineEvent → Bool
  | PipelineEvent.write_file _ _ _ => true
  | _ => false

/-- Event classifier: warehouse stage creation. -/
def is_stage_event : PipelineEvent → Bool
  | PipelineEvent.create_stage _ => true
  | _ => false

/-- Event classifier: file transfers of the upload sweep. -/
def is_upload_event : PipelineEvent → Bool
  | PipelineEvent.upload_file _ => true
  | _ => false

/-- Event classifier: warehouse table creation and the load command. -/
def is_load_event : PipelineEvent → Bool
  | PipelineEvent.create_table _ => true
  | PipelineEvent.copy_command _ => true
  | _ => false

/-! ## Theorems -/

lemma start_replication_attempts {σ ε : Type} (run_task : σ → Except ε Unit) (specs : List σ) :
    (start_replication run_task specs).1.map Prod.fst = specs := by
  simp [start_replication, Function.comp_def]

lemma collect_results_eq_ok_iff {ε : Type} (l : List (Except ε Unit)) :
    collect_results l = Except.ok () ↔ ∀ r ∈ l, r = Except.ok () := by
  induction l with
  | nil => simp [collect_results]
  | cons hd tl ih =>
    cases hd with
    | ok u => cases u; simp [collect_results, ih]
    | error e => simp [collect_results]

/-- C10: execute_put returns true on every call in which the
underlying query execution does not throw; in particular a failed PUT
command, whose ProgrammingError execute_query catches and converts to
an empty list, is reported to the caller as a successful transfer, so
the false-returning branch of execute_put is unreachable in those
runs. -/
theorem C10_execute_put_true_without_throw (o : QueryOutcome)
    (h : o ≠ QueryOutcome.otherError) : execute_put o = true := by
  cases o with
  | rows rs => rfl
  | programmingError => rfl
  | otherError => exact absurd rfl h

/-- Witness for C10 at the PUT-failure outcome. -/
theorem C10_execute_put_witness :
    QueryOutcome.programmingError ≠ QueryOutcome.otherError ∧
      execute_put QueryOutcome.programmingError = true :=
  ⟨by decide, C10_execute_put_true_without_throw QueryOutcome.programmingError (by decide)⟩

/-- C3 counterexample: with a cloud transfer that succeeded but the
exclude_file_after_uploading setting disabled, the local file is not
deleted, refuting deletion if and only if some transfer succeeded. -/
theorem C3_counterexample :
    ¬(upload_deletes_file (SweepContext.mk false false true false) false true = true ↔
        transfer_reported_success (SweepContext.mk false false true false) false true = true) := by
  decide

/-- C3 amended: a staged local file is deleted if and only if at least
one transfer of it reported success and the exclude_file_after_uploading
setting is enabled; accordingly a file survives the sweep of the local
directory exactly when it was listed and its deletion condition is
false (in particular whenever both of its transfers failed). -/
theorem C3_deletion_requires_success_and_setting (c : SweepContext)
    (put_res cloud_res : String → Bool) (fs : List String) (f : String) :
    (upload_deletes_file c (put_res f) (cloud_res f) = true ↔
      transfer_reported_success c (put_res f) (cloud_res f) = true ∧
        c.exclude_file_after_uploading = true) ∧
    (f ∈ upload_files_remaining c put_res cloud_res fs ↔
      f ∈ fs ∧ upload_deletes_file c (put_res f) (cloud_res f) = false) := by
  constructor
  · rw [upload_deletes_file]
    simp
  · rw [upload_files_remaining, List.mem_filter]
    simp

/-- C2 counterexample: a single failing pipeline task does not leave
start_replication with only a recorded per-table failure; the
result-collection loop re-raises it, so the failure propagates to the
caller of the start operation (while the sibling spec is still
attempted). -/
theorem C2_counterexample :
    (start_replication (fun n => if n = 0 then Except.error 37 else Except.ok ()) [0, 1]).1 =
        [(0, Except.error 37), (1, Except.ok ())] ∧
    (start_replication (fun n => if n = 0 then Except.error 37 else Except.ok ()) [0, 1]).2 =
        Except.error 37 :=
  ⟨rfl, rfl⟩

/-- C2 amended: every spec in the input is attempted exactly once and
no failure cancels a sibling (the recorded task list pairs each input
spec, in order, with its own outcome), and the call reaches its
result-collection loop only after all tasks are terminal; but
individual task failures are not converted into per-table results: the
call finishes without raising exactly when every task succeeded,
re-raising the first captured failure otherwise. -/
theorem C2_start_replication_amended {σ ε : Type} (run_task : σ → Except ε Unit)
    (specs : List σ) :
    (start_replication run_task specs).1.map Prod.fst = specs ∧
    ((start_replication run_task specs).2 = Except.ok () ↔
      ∀ s ∈ specs, run_task s = Except.ok ()) := by
  refine ⟨start_replication_attempts run_task specs, ?_⟩
  rw [start_replication]
  simp [collect_results_eq_ok_iff, List.map_map, Function.comp]

/-- C9: a table config with replicate set to false is rejected during
validation, never enters the filtered list, and consequently is never
dispatched by start_replication onto the worker pool. -/
theorem C9_replicate_false_never_dispatched (valid_file_formats source_db_tables : List String)
    (tables_config : List TableConfig) (t : TableConfig) {ε : Type}
    (run_task : TableConfig → Except ε Unit) (h : t.replicate = false) :
    t ∉ filtered_tables_configs valid_file_formats source_db_tables tables_config ∧
    t ∉ (start_replication run_task
          (filtered_tables_configs valid_file_formats source_db_tables tables_config)).1.map
        Prod.fst := by
  have h1 : t ∉ filtered_tables_configs valid_file_formats source_db_tables tables_config := by
    intro hmem
    rw [filtered_tables_configs, List.mem_filter] at hmem
    have h2 := hmem.2
    rw [validate_if_table_config_is_invalid] at h2
    rw [h] at h2
    simp at h2
  refine ⟨h1, ?_⟩
  rw [start_replication_attempts]
  exact h1

/-- Witness for C9 at a concrete replicate=false config. -/
theorem C9_witness :
    (TableConfig.mk false (some "orders") (some "csv")).replicate = false ∧
    ((TableConfig.mk false (some "orders") (some "csv")) ∉
        filtered_tables_configs ["csv"] ["orders"]
          [TableConfig.mk false (some "orders") (some "csv")] ∧
      (TableConfig.mk false (some "orders") (some "csv")) ∉
        (start_replication (fun _ => (Except.ok () : Except Unit Unit))
            (filtered_tables_configs ["csv"] ["orders"]
              [TableConfig.mk false (some "orders") (some "csv")])).1.map
          Prod.fst) :=
  ⟨rfl,
    C9_replicate_false_never_dispatched ["csv"] ["orders"]
      [TableConfig.mk false (some "orders") (some "csv")]
      (TableConfig.mk false (some "orders") (some "csv"))
      (fun _ => (Except.ok () : Except Unit Unit)) rfl⟩

/-- C6 counterexample: two files uploaded in one invocation with date
partitioning enabled obtain different partition segments when the
clock advances past midnight between their uploads, because the
segment is recomputed from datetime.now() inside every per-file call;
it is not computed once per invocation. -/
theorem C6_counterexample :
    (upload_files_remote_dirs (some "p") true (fun i => CalDate.mk 2024 12 (31 + i)) 0
          ["a", "b"]).map Prod.snd =
        [some "p/year=2024/month=12/day=31", some "p/year=2024/month=12/day=32"] ∧
      some "p/year=2024/month=12/day=31" ≠ (some "p/year=2024/month=12/day=32" : Option String) := by
  constructor
  · rfl
  · decide

/-- C6 amended: the date-partition segment is computed per file, at
that file's upload; therefore all files of one invocation share one
partition segment exactly in the case that the date read by the clock
does not change during the invocation, as stated here for a constant
clock. -/
theorem C6_partition_shared_when_date_constant (p : String) (clock : Nat → CalDate)
    (d : CalDate) (i0 : Nat) (files : List String) (h : ∀ i, clock i = d) :
    ∀ x ∈ upload_files_remote_dirs (some p) true clock i0 files,
      x.2 = some (p ++ partition_segment d) := by
  induction files generalizing i0 with
  | nil =>
    intro x hx
    simp [upload_files_remote_dirs] at hx
  | cons f fs ih =>
    intro x hx
    rw [upload_files_remote_dirs] at hx
    rcases List.mem_cons.mp hx with h1 | h2
    · rw [h1]
      simp [upload_remote_dir, h i0]
    · exact ih (i0 + 1) x h2

/-- Witness for C6 at a constant clock over two files. -/
theorem C6_witness :
    (∀ i : Nat, (fun _ => CalDate.mk 2025 1 2) i = CalDate.mk 2025 1 2) ∧
    ∀ x ∈ upload_files_remote_dirs (some "p") true (fun _ => CalDate.mk 2025 1 2) 0 ["a", "b"],
      x.2 = some ("p" ++ partition_segment (CalDate.mk 2025 1 2)) :=
  ⟨fun _ => rfl,
    C6_partition_shared_when_date_constant "p" (fun _ => CalDate.mk 2025 1 2)
      (CalDate.mk 2025 1 2) 0 ["a", "b"] (fun _ => rfl)⟩

lemma unloaded_files_append_notmem (loaded : List FileId) (a : FileId)
    (files : List (FileId × List Row)) (h : a ∉ files.map Prod.fst) :
    unloaded_files (loaded ++ [a]) files = unloaded_files loaded files := by
  induction files with
  | nil => rfl
  | cons f fs ih =>
    rw [List.map_cons] at h
    have hne : f.1 ≠ a := fun he => h (by rw [← he]; exact List.mem_cons_self _ _)
    have htail : a ∉ fs.map Prod.fst := fun hm => h (List.mem_cons_of_mem _ hm)
    by_cases hmem : f.1 ∈ loaded
    · rw [unloaded_files, unloaded_files, if_pos (List.mem_append.mpr (Or.inl hmem)),
        if_pos hmem, ih htail]
    · have hnot : f.1 ∉ loaded ++ [a] := by
        simp [List.mem_append, hmem, hne]
      rw [unloaded_files, unloaded_files, if_neg hnot, if_neg hmem, ih htail]

lemma copy_into_spec (files : List (FileId × List Row)) (t : WarehouseTable)
    (h : (files.map Prod.fst).Nodup) :
    (copy_into (Stage.mk files) t).rows =
        t.rows ++ ((unloaded_files t.loaded_files files).map Prod.snd).flatten ∧
    (copy_into (Stage.mk files) t).loaded_files =
        t.loaded_files ++ (unloaded_files t.loaded_files files).map Prod.fst := by
  induction files generalizing t with
  | nil => simp [copy_into, unloaded_files]
  | cons f fs ih =>
    rw [List.map_cons, List.nodup_cons] at h
    by_cases hmem : f.1 ∈ t.loaded_files
    · have hstep : copy_into (Stage.mk (f :: fs)) t = copy_into (Stage.mk fs) t := by
        rw [copy_into, copy_into, List.foldl_cons, if_pos hmem]
      rw [hstep, unloaded_files, if_pos hmem]
      exact ih t h.2
    · have hstep : copy_into (Stage.mk (f :: fs)) t =
          copy_into (Stage.mk fs)
            (WarehouseTable.mk (t.rows ++ f.2) (t.loaded_files ++ [f.1])) := by
        rw [copy_into, copy_into, List.foldl_cons, if_neg hmem]
      have hrec := ih (WarehouseTable.mk (t.rows ++ f.2) (t.loaded_files ++ [f.1])) h.2
      rw [unloaded_files_append_notmem _ _ _ h.1] at hrec
      rw [hstep, unloaded_files, if_neg hmem]
      constructor
      · rw [hrec.1]
        simp [List.append_assoc]
      · rw [hrec.2]
        simp [List.append_assoc]

lemma loaded_mono (files : List (FileId × List Row)) (t : WarehouseTable) (a : FileId)
    (ha : a ∈ t.loaded_files) : a ∈ (copy_into (Stage.mk files) t).loaded_files := by
  induction files generalizing t with
  | nil => exact ha
  | cons f fs ih =>
    by_cases hmem : f.1 ∈ t.loaded_files
    · have hstep : copy_into (Stage.mk (f :: fs)) t = copy_into (Stage.mk fs) t := by
        rw [copy_into, copy_into, List.foldl_cons, if_pos hmem]
      rw [hstep]
      exact ih t ha
    · have hstep : copy_into (Stage.mk (f :: fs)) t =
          copy_into (Stage.mk fs)
            (WarehouseTable.mk (t.rows ++ f.2) (t.loaded_files ++ [f.1])) := by
        rw [copy_into, copy_into, List.foldl_cons, if_neg hmem]
      rw [hstep]
      exact ih _ (List.mem_append.mpr (Or.inl ha))

lemma mem_loaded_after_copy (files : List (FileId × List Row)) (t : WarehouseTable)
    (a : FileId) (ha : a ∈ files.map Prod.fst) :
    a ∈ (copy_into (Stage.mk files) t).loaded_files := by
  induction files generalizing t with
  | nil => simp at ha
  | cons f fs ih =>
    rw [List.map_cons] at ha
    by_cases hmem : f.1 ∈ t.loaded_files
    · have hstep : copy_into (Stage.mk (f :: fs)) t = copy_into (Stage.mk fs) t := by
        rw [copy_into, copy_into, List.foldl_cons, if_pos hmem]
      rw [hstep]
      rcases List.mem_cons.mp ha with h1 | h2
      · exact loaded_mono fs t a (h1 ▸ hmem)
      · exact ih t h2
    · have hstep : copy_into (Stage.mk (f :: fs)) t =
          copy_into (Stage.mk fs)
            (WarehouseTable.mk (t.rows ++ f.2) (t.loaded_files ++ [f.1])) := by
        rw [copy_into, copy_into, List.foldl_cons, if_neg hmem]
      rw [hstep]
      rcases List.mem_cons.mp ha with h1 | h2
      · exact loaded_mono fs _ a (by simp [h1])
      · exact ih _ h2

lemma unloaded_files_nil_of_all_loaded (loaded : List FileId)
    (files : List (FileId × List Row)) (h : ∀ a ∈ files.map Prod.fst, a ∈ loaded) :
    unloaded_files loaded files = [] := by
  induction files with
  | nil => rfl
  | cons f fs ih =>
    rw [unloaded_files, if_pos (h f.1 (by simp))]
    exact ih fun a ha => h a (by rw [List.map_cons]; exact List.mem_cons_of_mem _ ha)

/-- C1 counterexample: with one freshly staged one-row file and an
empty load history, the first run of the load protocol leaves one row
in the target table, but the second run against the same staged files
leaves zero rows (the delete is no longer offset by the copy because
the file is now bookmarked), refuting that two runs yield the same
final row count. -/
theorem C1_counterexample :
    ¬((execute_copy_command (Stage.mk [(0, [7])])
          (execute_copy_command (Stage.mk [(0, [7])]) (WarehouseTable.mk [] []))).rows.length =
        (execute_copy_command (Stage.mk [(0, [7])]) (WarehouseTable.mk [] [])).rows.length) := by
  decide

/-- C1 amended: one load invocation issues the full row-delete first
(DELETE, not a native TRUNCATE, so the file-history bookmark is
preserved) and then the copy command referencing the stage; the
protocol is therefore delete-then-load and not additive: after one
invocation the target table holds exactly the rows of the staged files
that were unbookmarked at the start of the invocation, and a second
invocation against the same staged files with no new files leaves the
target table empty (every staged file having been bookmarked by the
first), rather than repeating the first invocation's row count. -/
theorem C1_load_protocol_amended (s : Stage) (t : WarehouseTable)
    (h : (s.files.map Prod.fst).Nodup) :
    (execute_copy_command s t).rows =
        ((unloaded_files t.loaded_files s.files).map Prod.snd).flatten ∧
    (execute_copy_command s (execute_copy_command s t)).rows = [] := by
  constructor
  · have hspec := copy_into_spec s.files (delete_from t) h
    rw [execute_copy_command]
    rw [show delete_from t = WarehouseTable.mk [] t.loaded_files from rfl] at hspec ⊢
    rw [hspec.1]
    simp
  · have hsub : ∀ a ∈ s.files.map Prod.fst, a ∈ (execute_copy_command s t).loaded_files :=
      fun a ha => mem_loaded_after_copy s.files (delete_from t) a ha
    have hspec := copy_into_spec s.files (delete_from (execute_copy_command s t)) h
    rw [execute_copy_command, hspec.1]
    rw [show (delete_from (execute_copy_command s t)).loaded_files =
          (execute_copy_command s t).loaded_files from rfl]
    rw [unloaded_files_nil_of_all_loaded _ _ hsub]
    simp [delete_from]

/-- Witness for C1 amended at a concrete stage and table. -/
theorem C1_witness :
    ((Stage.mk [(0, [7]), (1, [8, 9])]).files.map Prod.fst).Nodup ∧
    ((execute_copy_command (Stage.mk [(0, [7]), (1, [8, 9])]) (WarehouseTable.mk [3] [1])).rows =
        ((unloaded_files (WarehouseTable.mk [3] [1]).loaded_files
            (Stage.mk [(0, [7]), (1, [8, 9])]).files).map Prod.snd).flatten ∧
      (execute_copy_command (Stage.mk [(0, [7]), (1, [8, 9])])
          (execute_copy_command (Stage.mk [(0, [7]), (1, [8, 9])])
            (WarehouseTable.mk [3] [1]))).rows = []) :=
  ⟨by decide, C1_load_protocol_amended (Stage.mk [(0, [7]), (1, [8, 9])])
    (WarehouseTable.mk [3] [1]) (by decide)⟩

/-- C5 counterexample: a bulk-mode invocation over an empty result
set, with a Snowflake client configured, still writes a local file
with zero data rows and still issues stage creation, table creation
and the copy command, refuting that no downstream stage executes. -/
theorem C5_counterexample :
    PipelineEvent.write_file
        (local_storage_path (TaskConfig.mk "/tmp/" "db" "db" "t" "TS" "csv" true false none))
        (task_file_name (TaskConfig.mk "/tmp/" "db" "db" "t" "TS" "csv" true false none)) 0 ∈
      task_definition (TaskConfig.mk "/tmp/" "db" "db" "t" "TS" "csv" true false none) [] [] 0 [] ∧
    PipelineEvent.create_stage "t" ∈
      task_definition (TaskConfig.mk "/tmp/" "db" "db" "t" "TS" "csv" true false none) [] [] 0 [] ∧
    PipelineEvent.copy_command "t" ∈
      task_definition (TaskConfig.mk "/tmp/" "db" "db" "t" "TS" "csv" true false none) [] [] 0 [] := by
  decide

/-- C5 amended: a bulk-mode pipeline invocation whose extraction
returned an empty result set logs the empty extraction but does not
terminate early: it writes a local file holding zero data rows and,
when a Snowflake client is configured, still creates the stage, still
creates the table and still issues the load command. -/
theorem C5_empty_result_still_runs_downstream (c : TaskConfig) (outs : List FetchOutcome)
    (total : Nat) (remaining_files : List String) (h1 : c.batch_size = none)
    (h2 : c.has_snowflake = true) :
    PipelineEvent.write_file (local_storage_path c) (task_file_name c) 0 ∈
      task_definition c [] outs total remaining_files ∧
    PipelineEvent.create_stage c.table_renamed ∈ task_definition c [] outs total remaining_files ∧
    PipelineEvent.create_table c.table_renamed ∈ task_definition c [] outs total remaining_files ∧
    PipelineEvent.copy_command c.table_renamed ∈ task_definition c [] outs total remaining_files := by
  rw [task_definition, write_events, h1]
  simp [h2]

/-- Witness for C5 amended at a concrete empty-result invocation. -/
theorem C5_witness :
    ((TaskConfig.mk "/d/" "db" "s" "t" "TS" "csv" true true none).batch_size = none ∧
      (TaskConfig.mk "/d/" "db" "s" "t" "TS" "csv" true true none).has_snowflake = true) ∧
    (PipelineEvent.write_file
        (local_storage_path (TaskConfig.mk "/d/" "db" "s" "t" "TS" "csv" true true none))
        (task_file_name (TaskConfig.mk "/d/" "db" "s" "t" "TS" "csv" true true none)) 0 ∈
      task_definition (TaskConfig.mk "/d/" "db" "s" "t" "TS" "csv" true true none) [] [] 5 ["x"] ∧
    PipelineEvent.create_stage "t" ∈
      task_definition (TaskConfig.mk "/d/" "db" "s" "t" "TS" "csv" true true none) [] [] 5 ["x"] ∧
    PipelineEvent.create_table "t" ∈
      task_definition (TaskConfig.mk "/d/" "db" "s" "t" "TS" "csv" true true none) [] [] 5 ["x"] ∧
    PipelineEvent.copy_command "t" ∈
      task_definition (TaskConfig.mk "/d/" "db" "s" "t" "TS" "csv" true true none) [] [] 5 ["x"]) :=
  ⟨⟨rfl, rfl⟩,
    C5_empty_result_still_runs_downstream
      (TaskConfig.mk "/d/" "db" "s" "t" "TS" "csv" true true none) [] 5 ["x"] rfl rfl⟩

lemma mem_batch_write_events (c : TaskConfig) (i0 : Nat) (bs : List (List Row))
    (e : PipelineEvent) (he : e ∈ batch_write_events c i0 bs) :
    ∃ i k, e = PipelineEvent.write_file (local_storage_path c) (batch_file_name c i) k := by
  induction bs generalizing i0 with
  | nil => simp [batch_write_events] at he
  | cons b bs ih =>
    rw [batch_write_events] at he
    rcases List.mem_cons.mp he with h1 | h2
    · exact ⟨i0, b.length, h1⟩
    · exact ih (i0 + 1) h2

lemma write_events_shape (c : TaskConfig) (data : List Row) (outs : List FetchOutcome)
    (total : Nat) (e : PipelineEvent) (he : e ∈ write_events c data outs total) :
    ∃ d n k, e = PipelineEvent.write_file d n k := by
  rw [write_events] at he
  cases hbs : c.batch_size with
  | none =>
    rw [hbs] at he
    rcases List.mem_cons.mp he with h1 | h2
    · exact ⟨_, _, _, h1⟩
    · simp at h2
  | some size =>
    rw [hbs] at he
    obtain ⟨i, k, hk⟩ := mem_batch_write_events c 0 (batch_extraction size total outs) e he
    exact ⟨_, _, _, hk⟩

lemma local_storage_path_eq (c : TaskConfig) :
    local_storage_path c =
      if c.schema = c.database then
        c.local_storage_directory ++ c.database ++ "/" ++ c.table_renamed
      else
        c.local_storage_directory ++ c.database ++ "/" ++ c.schema ++ "/" ++ c.table_renamed := by
  rw [local_storage_path]
  by_cases h : c.schema = c.database
  · simp [h]
  · simp [h]

/-- C8 counterexample: in a batched invocation the first written file
is named with the batch index as an underscore-separated prefix of the
timestamp, not with the underscore-suffix form the claim states. -/
theorem C8_counterexample :
    batch_file_name (TaskConfig.mk "/r/" "db" "sch" "t" "T" "csv" false false (some 1)) 0 ≠
      spec_batch_file_name (TaskConfig.mk "/r/" "db" "sch" "t" "T" "csv" false false (some 1)) 0 ∧
    PipelineEvent.write_file
        (local_storage_path (TaskConfig.mk "/r/" "db" "sch" "t" "T" "csv" false false (some 1)))
        (batch_file_name (TaskConfig.mk "/r/" "db" "sch" "t" "T" "csv" false false (some 1)) 0) 1 ∈
      task_definition (TaskConfig.mk "/r/" "db" "sch" "t" "T" "csv" false false (some 1)) []
        [FetchOutcome.ok 5] 1 [] := by
  decide

/-- C8 amended: every file written by one pipeline invocation goes to
the directory <local_root><database>/[<schema>/]<target_table>, with
the schema segment omitted exactly when the schema equals the
database; the file name is <timestamp>.<format> in bulk mode and
<batch_index>_<timestamp>.<format> in batched mode (the batch index is
an underscore-separated prefix of the file name, not a suffix of the
timestamp). -/
theorem C8_local_file_layout (c : TaskConfig) (data : List Row) (outs : List FetchOutcome)
    (total : Nat) (remaining_files : List String) (d n : String) (k : Nat)
    (h : PipelineEvent.write_file d n k ∈ task_definition c data outs total remaining_files) :
    d = (if c.schema = c.database then
          c.local_storage_directory ++ c.database ++ "/" ++ c.table_renamed
        else
          c.local_storage_directory ++ c.database ++ "/" ++ c.schema ++ "/" ++ c.table_renamed) ∧
    ((c.batch_size = none ∧ n = c.timestamp ++ "." ++ c.file_format) ∨
      (∃ (size i : Nat), c.batch_size = some size ∧
        n = toString i ++ "_" ++ (c.timestamp ++ "." ++ c.file_format))) := by
  have hw : PipelineEvent.write_file d n k ∈ write_events c data outs total := by
    rw [task_definition] at h
    rcases List.mem_append.mp h with h1 | h4
    · rcases List.mem_append.mp h1 with h2 | h3
      · rcases List.mem_append.mp h2 with ha | hb
        · exact ha
        · exfalso
          revert hb
          split <;> simp
      · exfalso
        revert h3
        split <;> simp
    · exfalso
      revert h4
      split <;> simp
  rw [write_events] at hw
  cases hbs : c.batch_size with
  | none =>
    rw [hbs] at hw
    rcases List.mem_cons.mp hw with h1 | h2
    · have hd : d = local_storage_path c := by
        injection h1 with hd hrest
      have hn : n = task_file_name c := by
        injection h1 with hd hn hk
      refine ⟨?_, Or.inl ⟨rfl, ?_⟩⟩
      · rw [hd, local_storage_path_eq]
      · rw [hn, task_file_name]
    · simp at h2
  | some size =>
    rw [hbs] at hw
    obtain ⟨i, k2, hk⟩ := mem_batch_write_events c 0 (batch_extraction size total outs) _ hw
    have hd : d = local_storage_path c := by
      injection hk
    have hn : n = batch_file_name c i := by
      injection hk with hd2 hn2 hk2
    refine ⟨?_, Or.inr ⟨size, i, rfl, ?_⟩⟩
    · rw [hd, local_storage_path_eq]
    · rw [hn, batch_file_name, task_file_name]

/-- Witness for C8 amended at a concrete batched write. -/
theorem C8_witness :
    (PipelineEvent.write_file
        (local_storage_path (TaskConfig.mk "/r/" "db" "db" "t" "T" "csv" false false (some 2)))
        (batch_file_name (TaskConfig.mk "/r/" "db" "db" "t" "T" "csv" false false (some 2)) 0) 2 ∈
      task_definition (TaskConfig.mk "/r/" "db" "db" "t" "T" "csv" false false (some 2)) []
        [FetchOutcome.ok 4, FetchOutcome.ok 6] 2 []) ∧
    (local_storage_path (TaskConfig.mk "/r/" "db" "db" "t" "T" "csv" false false (some 2)) =
        (if ("db" : String) = "db" then "/r/" ++ "db" ++ "/" ++ "t"
         else "/r/" ++ "db" ++ "/" ++ "db" ++ "/" ++ "t") ∧
      (((some 2 : Option Nat) = none ∧
          batch_file_name (TaskConfig.mk "/r/" "db" "db" "t" "T" "csv" false false (some 2)) 0 =
            "T" ++ "." ++ "csv") ∨
        (∃ (size i : Nat), (some 2 : Option Nat) = some size ∧
          batch_file_name (TaskConfig.mk "/r/" "db" "db" "t" "T" "csv" false false (some 2)) 0 =
            toString i ++ "_" ++ ("T" ++ "." ++ "csv")))) :=
  ⟨by decide,
    C8_local_file_layout (TaskConfig.mk "/r/" "db" "db" "t" "T" "csv" false false (some 2)) []
      [FetchOutcome.ok 4, FetchOutcome.ok 6] 2 []
      (local_storage_path (TaskConfig.mk "/r/" "db" "db" "t" "T" "csv" false false (some 2)))
      (batch_file_name (TaskConfig.mk "/r/" "db" "db" "t" "T" "csv" false false (some 2)) 0) 2
      (by decide)⟩

lemma pos_ge_of_none_before (l₁ l₂ : List PipelineEvent) (p : PipelineEvent → Bool)
    (hl : ∀ a ∈ l₁, p a = false) (j : Nat) (e : PipelineEvent)
    (he : (l₁ ++ l₂)[j]? = some e) (hp : p e = true) : l₁.length ≤ j := by
  by_contra hlt
  push_neg at hlt
  rw [List.getElem?_append, if_pos hlt] at he
  have hmem : e ∈ l₁ := List.getElem?_mem he
  rw [hl e hmem] at hp
  simp at hp

lemma pos_lt_of_none_after (l₁ l₂ : List PipelineEvent) (p : PipelineEvent → Bool)
    (hl : ∀ a ∈ l₂, p a = false) (j : Nat) (e : PipelineEvent)
    (he : (l₁ ++ l₂)[j]? = some e) (hp : p e = true) : j < l₁.length := by
  by_contra hge
  push_neg at hge
  rw [List.getElem?_append_right hge] at he
  have hmem : e ∈ l₂ := List.getElem?_mem he
  rw [hl e hmem] at hp
  simp at hp

/-- C7: within one pipeline invocation with a Snowflake client
configured, the position of the stage-creation event is strictly
before the position of every transfer event of the upload sweep, and
every transfer position is strictly before the positions of table
creation and of the load command. -/
theorem C7_stage_before_transfer_before_load (c : TaskConfig) (data : List Row)
    (outs : List FetchOutcome) (total : Nat) (remaining_files : List String)
    (hsf : c.has_snowflake = true) (i j k : Nat) (ei ej ek : PipelineEvent)
    (hi : (task_definition c data outs total remaining_files)[i]? = some ei)
    (hsi : is_stage_event ei = true)
    (hj : (task_definition c data outs total remaining_files)[j]? = some ej)
    (huj : is_upload_event ej = true)
    (hk : (task_definition c data outs total remaining_files)[k]? = some ek)
    (hlk : is_load_event ek = true) :
    i < j ∧ j < k := by
  have hT : task_definition c data outs total remaining_files =
      ((write_events c data outs total ++ [PipelineEvent.create_stage c.table_renamed]) ++
          remaining_files.map PipelineEvent.upload_file) ++
        [PipelineEvent.create_table c.table_renamed, PipelineEvent.copy_command c.table_renamed,
          PipelineEvent.create_view c.table_renamed] := by
    rw [task_definition, hsf]
    simp
  have hA_stage : ∀ a ∈ write_events c data outs total, is_stage_event a = false := by
    intro a ha
    obtain ⟨d, n, k2, rfl⟩ := write_events_shape c data outs total a ha
    rfl
  have hA_upload : ∀ a ∈ write_events c data outs total, is_upload_event a = false := by
    intro a ha
    obtain ⟨d, n, k2, rfl⟩ := write_events_shape c data outs total a ha
    rfl
  have hA_load : ∀ a ∈ write_events c data outs total, is_load_event a = false := by
    intro a ha
    obtain ⟨d, n, k2, rfl⟩ := write_events_shape c data outs total a ha
    rfl
  have hU_stage : ∀ a ∈ remaining_files.map PipelineEvent.upload_file,
      is_stage_event a = false := by
    intro a ha
    obtain ⟨f, hf, rfl⟩ := List.mem_map.mp ha
    rfl
  have hU_load : ∀ a ∈ remaining_files.map PipelineEvent.upload_file,
      is_load_event a = false := by
    intro a ha
    obtain ⟨f, hf, rfl⟩ := List.mem_map.mp ha
    rfl
  have hL_stage : ∀ a ∈ [PipelineEvent.create_table c.table_renamed,
      PipelineEvent.copy_command c.table_renamed, PipelineEvent.create_view c.table_renamed],
      is_stage_event a = false := by
    intro a ha
    rcases List.mem_cons.mp ha with h1 | ha
    · rw [h1]; rfl
    rcases List.mem_cons.mp ha with h1 | ha
    · rw [h1]; rfl
    rcases List.mem_cons.mp ha with h1 | ha
    · rw [h1]; rfl
    · simp at ha
  have hL_upload : ∀ a ∈ [PipelineEvent.create_table c.table_renamed,
      PipelineEvent.copy_command c.table_renamed, PipelineEvent.create_view c.table_renamed],
      is_upload_event a = false := by
    intro a ha
    rcases List.mem_cons.mp ha with h1 | ha
    · rw [h1]; rfl
    rcases List.mem_cons.mp ha with h1 | ha
    · rw [h1]; rfl
    rcases List.mem_cons.mp ha with h1 | ha
    · rw [h1]; rfl
    · simp at ha
  have hS_upload : ∀ a ∈ [PipelineEvent.create_stage c.table_renamed],
      is_upload_event a = false := by
    intro a ha
    rcases List.mem_cons.mp ha with h1 | ha
    · rw [h1]; rfl
    · simp at ha
  have hS_load : ∀ a ∈ [PipelineEvent.create_stage c.table_renamed],
      is_load_event a = false := by
    intro a ha
    rcases List.mem_cons.mp ha with h1 | ha
    · rw [h1]; rfl
    · simp at ha
  rw [hT] at hi hj hk
  -- positions relative to the three split points
  have hi_up : i < (write_events c data outs total ++
      [PipelineEvent.create_stage c.table_renamed]).length := by
    rw [List.append_assoc] at hi
    refine pos_lt_of_none_after _ _ is_stage_event ?_ i ei hi hsi
    intro a ha
    rcases List.mem_append.mp ha with h1 | h2
    · exact hU_stage a h1
    · exact hL_stage a h2
  have hj_lo : (write_events c data outs total ++
      [PipelineEvent.create_stage c.table_renamed]).length ≤ j := by
    rw [List.append_assoc] at hj
    refine pos_ge_of_none_before _ _ is_upload_event ?_ j ej hj huj
    intro a ha
    rcases List.mem_append.mp ha with h1 | h2
    · exact hA_upload a h1
    · exact hS_upload a h2
  have hj_up : j < ((write_events c data outs total ++
      [PipelineEvent.create_stage c.table_renamed]) ++
      remaining_files.map PipelineEvent.upload_file).length :=
    pos_lt_of_none_after _ _ is_upload_event hL_upload j ej hj huj
  have hk_lo : ((write_events c data outs total ++
      [PipelineEvent.create_stage c.table_renamed]) ++
      remaining_files.map PipelineEvent.upload_file).length ≤ k := by
    refine pos_ge_of_none_before _ _ is_load_event ?_ k ek hk hlk
    intro a ha
    rcases List.mem_append.mp ha with h1 | h2
    · rcases List.mem_append.mp h1 with h3 | h4
      · exact hA_load a h3
      · exact hS_load a h4
    · exact hU_load a h2
  constructor
  · exact Nat.lt_of_lt_of_le hi_up hj_lo
  · exact Nat.lt_of_lt_of_le hj_up hk_lo

/-- Witness for C7 at a concrete one-file invocation. -/
theorem C7_witness :
    ((TaskConfig.mk "/r/" "db" "db" "t" "T" "csv" true false none).has_snowflake = true ∧
      (task_definition (TaskConfig.mk "/r/" "db" "db" "t" "T" "csv" true false none) [1] [] 0
          ["f"])[1]? = some (PipelineEvent.create_stage "t") ∧
      is_stage_event (PipelineEvent.create_stage "t") = true ∧
      (task_definition (TaskConfig.mk "/r/" "db" "db" "t" "T" "csv" true false none) [1] [] 0
          ["f"])[2]? = some (PipelineEvent.upload_file "f") ∧
      is_upload_event (PipelineEvent.upload_file "f") = true ∧
      (task_definition (TaskConfig.mk "/r/" "db" "db" "t" "T" "csv" true false none) [1] [] 0
          ["f"])[3]? = some (PipelineEvent.create_table "t") ∧
      is_load_event (PipelineEvent.create_table "t") = true) ∧
    (1 < 2 ∧ 2 < 3) :=
  ⟨by decide,
    C7_stage_before_transfer_before_load (TaskConfig.mk "/r/" "db" "db" "t" "T" "csv" true false none)
      [1] [] 0 ["f"] rfl 1 2 3 (PipelineEvent.create_stage "t") (PipelineEvent.upload_file "f")
      (PipelineEvent.create_table "t") (by decide) (by decide) (by decide) (by decide) (by decide)
      (by decide)⟩

lemma ok_rows_length_le (l : List FetchOutcome) : (ok_rows l).length ≤ l.length := by
  induction l with
  | nil => simp [ok_rows]
  | cons o rest ih =>
    cases o with
    | ok r =>
      rw [ok_rows]
      simp only [List.length_cons]
      omega
    | fail =>
      rw [ok_rows]
      simp only [List.length_cons]
      omega

lemma ok_rows_append (l₁ l₂ : List FetchOutcome) :
    ok_rows (l₁ ++ l₂) = ok_rows l₁ ++ ok_rows l₂ := by
  induction l₁ with
  | nil => rfl
  | cons o rest ih =>
    cases o with
    | ok r => rw [List.cons_append, ok_rows, ih, ok_rows, List.cons_append]
    | fail => rw [List.cons_append, ok_rows, ih, ok_rows]

lemma flatten_map_ok_rows (L : List (List FetchOutcome)) :
    (L.map ok_rows).flatten = ok_rows L.flatten := by
  induction L with
  | nil => rfl
  | cons c cs ih => simp [ok_rows_append, ih]

lemma inner_simple_spec (n : Nat) :
    ∀ outs : List FetchOutcome, inner_simple n outs = (ok_rows (outs.take n), outs.drop n) := by
  induction n with
  | zero =>
    intro outs
    rw [inner_simple]
    simp [ok_rows]
  | succ n ih =>
    intro outs
    cases outs with
    | nil =>
      rw [inner_simple]
      simp [ok_rows]
    | cons o rest =>
      cases o with
      | ok r =>
        rw [inner_simple, ih]
        simp [List.take_succ_cons, List.drop_succ_cons, ok_rows]
      | fail =>
        rw [inner_simple, ih]
        simp [List.take_succ_cons, List.drop_succ_cons, ok_rows]

lemma inner_fetch_eq_simple (total : Nat) :
    ∀ (n : Nat) (outs : List FetchOutcome) (count : Nat), count + outs.length ≤ total →
    inner_fetch total n outs count =
      ((inner_simple n outs).1, (inner_simple n outs).2,
        count + (inner_simple n outs).1.length) := by
  intro n
  induction n with
  | zero =>
    intro outs count h
    rw [inner_fetch]
    simp [inner_simple]
  | succ n ih =>
    intro outs count h
    by_cases hc : count = total
    · have houts : outs = [] := by
        cases outs with
        | nil => rfl
        | cons o rest =>
          exfalso
          rw [List.length_cons, hc] at h
          omega
      subst houts
      rw [inner_fetch, if_pos hc]
      simp [inner_simple]
    · cases outs with
      | nil =>
        rw [inner_fetch, if_neg hc]
        simp [inner_simple]
      | cons o rest =>
        cases o with
        | ok r =>
          have h2 : (count + 1) + rest.length ≤ total := by
            rw [List.length_cons] at h
            omega
          have hrec := ih rest (count + 1) h2
          simp [inner_fetch, hc, hrec, inner_simple]
          try omega
        | fail =>
          have h2 : count + rest.length ≤ total := by
            rw [List.length_cons] at h
            omega
          have hrec := ih rest count h2
          simp [inner_fetch, hc, hrec, inner_simple]

lemma outer_fetch_eq_simple (size total : Nat) :
    ∀ (fuel : Nat) (outs : List FetchOutcome) (count : Nat), count + outs.length ≤ total →
    outer_fetch size total fuel outs count = outer_simple fuel size outs := by
  intro fuel
  induction fuel with
  | zero =>
    intro outs count h
    rfl
  | succ fuel ih =>
    intro outs count h
    rw [outer_fetch, outer_simple, inner_fetch_eq_simple total size outs count h,
      inner_simple_spec]
    by_cases hrows : ok_rows (outs.take size) = []
    · rw [if_pos hrows, if_pos hrows]
    · rw [if_neg hrows, if_neg hrows]
      refine congrArg _ ?_
      refine ih (outs.drop size) (count + (ok_rows (outs.take size)).length) ?_
      have hle : (ok_rows (outs.take size)).length ≤ (outs.take size).length :=
        ok_rows_length_le _
      have hsplit : (outs.take size).length + (outs.drop size).length = outs.length := by
        rw [← List.length_append, List.take_append_drop]
      omega

lemma chunks_go_fuel (b : Nat) :
    ∀ (n fuel1 fuel2 : Nat) (l : List FetchOutcome), l.length ≤ n →
    l.length ≤ fuel1 → l.length ≤ fuel2 →
    chunks_go (b + 1) fuel1 l = chunks_go (b + 1) fuel2 l := by
  intro n
  induction n with
  | zero =>
    intro fuel1 fuel2 l h h1 h2
    have hl : l = [] := List.eq_nil_of_length_eq_zero (Nat.le_zero.mp h)
    subst hl
    cases fuel1 <;> cases fuel2 <;> rfl
  | succ n ih =>
    intro fuel1 fuel2 l h h1 h2
    cases l with
    | nil => cases fuel1 <;> cases fuel2 <;> rfl
    | cons x xs =>
      obtain ⟨g1, rfl⟩ : ∃ g, fuel1 = g + 1 :=
        ⟨fuel1 - 1, by rw [List.length_cons] at h1; omega⟩
      obtain ⟨g2, rfl⟩ : ∃ g, fuel2 = g + 1 :=
        ⟨fuel2 - 1, by rw [List.length_cons] at h2; omega⟩
      rw [chunks_go, chunks_go]
      refine congrArg _ ?_
      refine ih g1 g2 _ ?_ ?_ ?_ <;>
        · simp only [List.length_drop, List.length_cons] at h h1 h2 ⊢
          omega

lemma chunks_of_cons_eq (b : Nat) (x : FetchOutcome) (xs : List FetchOutcome) :
    chunks_of (b + 1) (x :: xs) =
      ((x :: xs).take (b + 1)) :: chunks_of (b + 1) ((x :: xs).drop (b + 1)) := by
  rw [chunks_of, chunks_of]
  rw [show (x :: xs).length = xs.length + 1 from rfl, chunks_go]
  refine congrArg _ ?_
  refine chunks_go_fuel b xs.length xs.length (((x :: xs).drop (b + 1)).length) _ ?_ ?_ le_rfl
  · simp only [List.length_drop, List.length_cons]
    omega
  · simp only [List.length_drop, List.length_cons]
    omega

lemma chunks_of_flatten (b : Nat) :
    ∀ (n : Nat) (outs : List FetchOutcome), outs.length ≤ n →
    (chunks_of (b + 1) outs).flatten = outs := by
  intro n
  induction n with
  | zero =>
    intro outs h
    have houts : outs = [] := List.eq_nil_of_length_eq_zero (Nat.le_zero.mp h)
    rw [houts]
    rfl
  | succ n ih =>
    intro outs h
    cases outs with
    | nil => rfl
    | cons x xs =>
      rw [chunks_of_cons_eq, List.flatten_cons]
      rw [ih ((x :: xs).drop (b + 1)) ?_]
      · exact List.take_append_drop _ _
      · simp only [List.length_drop, List.length_cons] at h ⊢
        omega

lemma ceil_div_step (nn b : Nat) (h1 : 1 ≤ nn) :
    ceil_div nn (b + 1) = ceil_div (nn - (b + 1)) (b + 1) + 1 := by
  rcases Nat.le_total nn (b + 1) with hle | hge
  · have h0 : nn - (b + 1) = 0 := by omega
    rw [h0, ceil_div, ceil_div]
    have e1 : nn + (b + 1) - 1 = (nn - 1) + (b + 1) := by omega
    rw [e1, Nat.add_div_right _ (by omega : 0 < b + 1)]
    have e2 : 0 + (b + 1) - 1 = b := by omega
    rw [e2, Nat.div_eq_of_lt (by omega : nn - 1 < b + 1),
      Nat.div_eq_of_lt (by omega : b < b + 1)]
  · rw [ceil_div, ceil_div]
    have e1 : nn + (b + 1) - 1 = ((nn - (b + 1)) + (b + 1) - 1) + (b + 1) := by omega
    rw [e1, Nat.add_div_right _ (by omega : 0 < b + 1)]

lemma chunks_of_length (b : Nat) :
    ∀ (n : Nat) (outs : List FetchOutcome), outs.length ≤ n →
    (chunks_of (b + 1) outs).length = ceil_div outs.length (b + 1) := by
  intro n
  induction n with
  | zero =>
    intro outs h
    have houts : outs = [] := List.eq_nil_of_length_eq_zero (Nat.le_zero.mp h)
    rw [houts]
    rw [show chunks_of (b + 1) ([] : List FetchOutcome) = [] from rfl]
    rw [show ([] : List FetchOutcome).length = 0 from rfl]
    rw [ceil_div, Nat.div_eq_of_lt (by omega : 0 + (b + 1) - 1 < b + 1)]
    rfl
  | succ n ih =>
    intro outs h
    cases outs with
    | nil =>
      rw [show chunks_of (b + 1) ([] : List FetchOutcome) = [] from rfl]
      rw [show ([] : List FetchOutcome).length = 0 from rfl]
      rw [ceil_div, Nat.div_eq_of_lt (by omega : 0 + (b + 1) - 1 < b + 1)]
      rfl
    | cons x xs =>
      rw [chunks_of_cons_eq, List.length_cons]
      rw [ih ((x :: xs).drop (b + 1)) ?_]
      · rw [List.length_drop]
        rw [ceil_div_step ((x :: xs).length) b (by rw [List.length_cons]; omega)]
      · simp only [List.length_drop, List.length_cons] at h ⊢
        omega

lemma outer_simple_eq_chunks (b : Nat) :
    ∀ (n fuel : Nat) (outs : List FetchOutcome), outs.length ≤ n →
    outs.length + 1 ≤ fuel →
    (∀ ch ∈ chunks_of (b + 1) outs, ok_rows ch ≠ []) →
    outer_simple fuel (b + 1) outs = (chunks_of (b + 1) outs).map ok_rows := by
  intro n
  induction n with
  | zero =>
    intro fuel outs h hf hch
    have houts : outs = [] := List.eq_nil_of_length_eq_zero (Nat.le_zero.mp h)
    subst houts
    obtain ⟨f, rfl⟩ : ∃ f, fuel = f + 1 := ⟨fuel - 1, by omega⟩
    rw [outer_simple]
    simp [ok_rows, chunks_of, chunks_go]
  | succ n ih =>
    intro fuel outs h hf hch
    cases outs with
    | nil =>
      obtain ⟨f, rfl⟩ : ∃ f, fuel = f + 1 := ⟨fuel - 1, by omega⟩
      rw [outer_simple]
      simp [ok_rows, chunks_of, chunks_go]
    | cons x xs =>
      obtain ⟨f, rfl⟩ : ∃ f, fuel = f + 1 := ⟨fuel - 1, by omega⟩
      rw [chunks_of_cons_eq] at hch ⊢
      have hhead : ok_rows ((x :: xs).take (b + 1)) ≠ [] :=
        hch _ (List.mem_cons_self _ _)
      rw [outer_simple, if_neg hhead, List.map_cons]
      refine congrArg _ ?_
      refine ih f ((x :: xs).drop (b + 1)) ?_ ?_ ?_
      · simp only [List.length_drop, List.length_cons] at h ⊢
        omega
      · simp only [List.length_drop, List.length_cons] at hf ⊢
        omega
      · intro ch hm
        exact hch ch (List.mem_cons_of_mem _ hm)

/-- C4 counterexample: with two source rows, batch size one and a
failed fetch of the first row, the batched extraction writes zero
batches instead of ceil(2/1) = 2, and the successfully fetched second
row is lost: the first all-failed window yields an empty batch, which
the outer loop takes as completion. -/
theorem C4_counterexample :
    ¬((batch_extraction 1 2 [FetchOutcome.fail, FetchOutcome.ok 5]).length = ceil_div 2 1 ∧
      (batch_extraction 1 2 [FetchOutcome.fail, FetchOutcome.ok 5]).flatten =
        ok_rows [FetchOutcome.fail, FetchOutcome.ok 5]) := by
  decide

/-- C4 amended: in batched mode with batch size B at least 1 and
total_records equal to the number of fetch attempts N, provided every
aligned window of B consecutive fetch attempts contains at least one
successful fetch, the pipeline writes exactly ceil(N/B) batches and
the union of all batch contents is the full result set minus exactly
the rows that individually failed to fetch. (When a window consists
entirely of failed fetches, the extraction instead stops at that
window, dropping all later rows, as the counterexample shows.) -/
theorem C4_batched_extraction_amended (size total : Nat) (outs : List FetchOutcome)
    (hsz : 1 ≤ size) (hlen : outs.length = total)
    (hch : ∀ ch ∈ chunks_of size outs, ok_rows ch ≠ []) :
    (batch_extraction size total outs).length = ceil_div total size ∧
    (batch_extraction size total outs).flatten = ok_rows outs := by
  obtain ⟨b, rfl⟩ : ∃ b, size = b + 1 := ⟨size - 1, by omega⟩
  have hb : batch_extraction (b + 1) total outs = (chunks_of (b + 1) outs).map ok_rows := by
    rw [batch_extraction,
      outer_fetch_eq_simple (b + 1) total (outs.length + 1) outs 0 (by omega)]
    exact outer_simple_eq_chunks b outs.length (outs.length + 1) outs le_rfl le_rfl hch
  constructor
  · rw [hb, List.length_map, chunks_of_length b outs.length outs le_rfl, hlen]
  · rw [hb, flatten_map_ok_rows, chunks_of_flatten b outs.length outs le_rfl]

/-- Witness for C4 amended: three rows, batch size two, the second row
failing to fetch; both windows contain a success, two batches are
written, and their union is the two successfully fetched rows. -/
theorem C4_witness :
    (1 ≤ 2 ∧ ([FetchOutcome.ok 1, FetchOutcome.fail, FetchOutcome.ok 2] : List FetchOutcome).length = 3 ∧
      ∀ ch ∈ chunks_of 2 [FetchOutcome.ok 1, FetchOutcome.fail, FetchOutcome.ok 2],
        ok_rows ch ≠ []) ∧
    ((batch_extraction 2 3 [FetchOutcome.ok 1, FetchOutcome.fail, FetchOutcome.ok 2]).length =
        ceil_div 3 2 ∧
      (batch_extraction 2 3 [FetchOutcome.ok 1, FetchOutcome.fail, FetchOutcome.ok 2]).flatten =
        ok_rows [FetchOutcome.ok 1, FetchOutcome.fail, FetchOutcome.ok 2]) :=
  ⟨by decide,
    C4_batched_extraction_amended 2 3 [FetchOutcome.ok 1, FetchOutcome.fail, FetchOutcome.ok 2]
      (by decide) (by decide) (by decide)⟩

end SnowflakeRepl
